import Mathlib

/-!
# Verification of the audio-transcript service (ridhiragroup/audio-transcript-expressjs)

A shallow embedding, in Lean 4, of the admission/scheduling layer and the
resolution-and-update pipeline of the audio-transcript Express service, together
with proofs and refutations of the specification's testable properties.

Conventions of the embedding:
* JavaScript strings become Lean `String`/`List Char`; `String.prototype.includes`,
  `trim`, `startsWith`, `toLowerCase` are re-implemented below with their JS meaning.
* Byte buffers become `List Nat` (each entry one byte); Node's
  `buffer.toString('ascii', a, b)` masks each byte with `0x7f`, which the model mirrors.
* `Date.now()` timestamps are `Nat` milliseconds.
* External network calls are oracles: each call site reads its outcome
  (`Except`-valued) from an environment record, so theorems quantify over every
  possible behaviour of the external providers.
* JavaScript counters that the code can decrement are `Int`, so no Nat-truncation
  can hide a drift.
-/

/-- JS `String.prototype.trim`: strip leading and trailing whitespace. -/
def jsTrim (s : String) : String :=
  String.mk (((s.data.dropWhile Char.isWhitespace).reverse.dropWhile Char.isWhitespace).reverse)

/-- Does `pat` occur as a contiguous run inside `hay`? (JS `hay.includes(pat)`.) -/
def subOccurs (pat : List Char) : List Char → Bool
  | [] => pat.isEmpty
  | c :: t => pat.isPrefixOf (c :: t) || subOccurs pat t

/-- JS `hay.includes(pat)` on strings. -/
def strIncludes (hay pat : String) : Bool := subOccurs pat.data hay.data

/-- JS `s.startsWith(p)`. -/
def strStartsWith (s p : String) : Bool := p.data.isPrefixOf s.data

deriving instance DecidableEq for Except

/-- Lower-case one ASCII character. -/
def lowerChar (c : Char) : Char :=
  if 'A' ≤ c && c ≤ 'Z' then Char.ofNat (c.toNat + 32) else c

/-- JS `String.prototype.toLowerCase` (ASCII is all the source ever feeds it). -/
def toLowerStr (s : String) : String := String.mk (s.data.map lowerChar)

/-- Node `Buffer.toString('ascii', start, stop)`: each byte is masked with `0x7f`
and read as one character. -/
def bufAscii (bytes : List Nat) (start stop : Nat) : String :=
  String.mk (((bytes.drop start).take (stop - start)).map fun b => Char.ofNat (b % 128))

/-- The extension alternatives of the URL regex
`/\.(mp3|wav|m4a|ogg|webm|flac|mp4|mpeg|mpga|oga)(\?|$)/`, in alternation order. -/
def audioUrlExts : List String :=
  ["mp3", "wav", "m4a", "ogg", "webm", "flac", "mp4", "mpeg", "mpga", "oga"]

/-- At a position right after a literal `.`, try each regex alternative in order;
an alternative matches when it is followed by `?` or the end of the string. -/
def urlExtHere (cs : List Char) : Option String :=
  audioUrlExts.findSome? fun e =>
    if e.data.isPrefixOf cs then
      match cs.drop e.data.length with
      | [] => some e
      | c :: _ => if c = '?' then some e else none
    else none

/-- Leftmost match of `/\.(mp3|wav|m4a|ogg|webm|flac|mp4|mpeg|mpga|oga)(\?|$)/`:
scan left to right for a dot whose suffix matches one of the alternatives. -/
def urlExtScan : List Char → Option String
  | [] => none
  | c :: t =>
    if c = '.' then
      match urlExtHere t with
      | some e => some e
      | none => urlExtScan t
    else urlExtScan t

/-- Format detection of `src/lib/processAudio.js` (canonical snapshot):
declared content type first (fixed `includes` table), then the URL-extension
regex on the lowercased URL, then byte-signature sniffing (only run when the
buffer holds strictly more than 12 bytes), defaulting to `mp3`. -/
def detectFileExtension (bytes : List Nat) (contentType url : String) : String :=
  if strIncludes contentType "audio/wav" || strIncludes contentType "audio/wave" then "wav"
  else if strIncludes contentType "audio/mpeg" || strIncludes contentType "audio/mp3" then "mp3"
  else if strIncludes contentType "audio/mp4" || strIncludes contentType "audio/m4a" then "m4a"
  else if strIncludes contentType "audio/ogg" then "ogg"
  else if strIncludes contentType "audio/webm" then "webm"
  else if strIncludes contentType "audio/flac" then "flac"
  else if strIncludes contentType "video/mp4" then "mp4"
  else
    match urlExtScan (toLowerStr url).data with
    | some e => e
    | none =>
      if bytes.length > 12 then
        if bufAscii bytes 0 4 = "RIFF" && bufAscii bytes 8 12 = "WAVE" then "wav"
        else if bufAscii bytes 0 3 = "ID3"
            || (bytes.getD 0 0 = 0xff && Nat.land (bytes.getD 1 0) 0xe0 = 0xe0) then "mp3"
        else if bufAscii bytes 0 4 = "OggS" then "ogg"
        else if bufAscii bytes 4 8 = "ftyp" then "mp4"
        else if bufAscii bytes 0 4 = "fLaC" then "flac"
        else "mp3"
      else "mp3"

/-! ## `src/lib/knowlarity.js`: recording-identifier extraction -/

/-- One hexadecimal digit, as accepted by the `[0-9a-fA-F]` character class. -/
def isHexDig (c : Char) : Bool := c.isDigit || ('a' ≤ c && c ≤ 'f') || ('A' ≤ c && c ≤ 'F')

/-- Match exactly `n` hex digits at the head of the list, returning them and the rest. -/
def hexRun : Nat → List Char → Option (List Char × List Char)
  | 0, l => some ([], l)
  | _ + 1, [] => none
  | n + 1, c :: t =>
    if isHexDig c then (hexRun n t).map (fun p => (c :: p.1, p.2)) else none

/-- Expect a literal character at the head. -/
def expectChar (c : Char) : List Char → Option (List Char)
  | [] => none
  | d :: t => if d = c then some t else none

/-- Match the canonical 8-4-4-4-12 UUID shape at the head of the list, returning the
matched characters (the capture of `([0-9a-fA-F]{8}-…-[0-9a-fA-F]{12})`). -/
def uuidHere (l : List Char) : Option (List Char) := do
  let (a, l) ← hexRun 8 l
  let l ← expectChar '-' l
  let (b, l) ← hexRun 4 l
  let l ← expectChar '-' l
  let (c, l) ← hexRun 4 l
  let l ← expectChar '-' l
  let (d, l) ← hexRun 4 l
  let l ← expectChar '-' l
  let (e, _) ← hexRun 12 l
  pure (a ++ '-' :: b ++ '-' :: c ++ '-' :: d ++ '-' :: e)

/-- Leftmost-match scan: try the position pattern `p` at every suffix, left to right
(the semantics of an unanchored JS regex `String.prototype.match`). -/
def scanFirst (p : List Char → Option (List Char)) : List Char → Option (List Char)
  | [] => p []
  | c :: t =>
    match p (c :: t) with
    | some r => some r
    | none => scanFirst p t

/-- Position pattern of `/\/recording\/([0-9a-fA-F]{8}-…-[0-9a-fA-F]{12})/`:
a literal `/recording/` followed by a canonical UUID; yields the UUID capture. -/
def recordingUuidHere (l : List Char) : Option (List Char) :=
  if "/recording/".data.isPrefixOf l then uuidHere (l.drop 11) else none

/-- Position pattern of `/\/recording\/([^\/?]+)/`: a literal `/recording/` followed
by at least one character other than `/` or `?`; yields the maximal such run. -/
def recordingAnyHere (l : List Char) : Option (List Char) :=
  if "/recording/".data.isPrefixOf l then
    match (l.drop 11).takeWhile (fun c => !(c = '/' || c = '?')) with
    | [] => none
    | r => some r
  else none

/-- Function `extractUuid` from `src/lib/knowlarity.js`: falsy input gives `''`; otherwise trim,
then the first of three patterns to match wins — (a) `/recording/` + canonical UUID,
(b) `/recording/` + any non-`/?` token, (c) a bare canonical UUID anywhere.
No match gives `''`. -/
def extractUuid (value : String) : String :=
  if value = "" then ""
  else
    let s := (jsTrim value).data
    match scanFirst recordingUuidHere s with
    | some m => String.mk m
    | none =>
      match scanFirst recordingAnyHere s with
      | some m => String.mk m
      | none =>
        match scanFirst uuidHere s with
        | some m => String.mk m
        | none => ""

/-! ## Latest `recording.js` snapshot: the recording-URL resolver -/

/-- Failure cases of the fallback resolution chain. -/
inductive ResolveErr
  | zohoFetch (msg : String)
  | emptyField (recordId : String)
  | noUuid (ref : String)
  | knowlarityFetch (msg : String)
deriving DecidableEq, Repr

/-- Oracle for the resolver's two external calls: the `Voice_Recording__s` value
fetched from the CRM record, and the secondary-provider (Knowlarity) lookup keyed
by the extracted identifier. -/
structure ResolveEnv where
  voiceRecording : Except String String
  knowlarity : String → Except String String

/-- Resolver outcome together with how many secondary-provider calls were made. -/
structure ResolveOut where
  result : Except ResolveErr String
  knowlarityCalls : Nat
deriving DecidableEq, Repr

/-- JS `voiceRecordingStr.includes('phonebridge.zoho.com')`. -/
def isPhonebridgeUrl (s : String) : Bool := strIncludes s "phonebridge.zoho.com"

/-- The direct-pass test of the resolver: the trimmed reference starts with an
http(s) scheme and is not a phonebridge URL. -/
def isDirectDownloadUrl (s : String) : Bool :=
  (strStartsWith s "http://" || strStartsWith s "https://") && !isPhonebridgeUrl s

/-- Function `getRecordingUrlFromFallback` (latest `recording.js` snapshot): fetch
`Voice_Recording__s`, fail if empty; return the trimmed value unchanged when it is a
direct non-phonebridge http(s) URL; otherwise extract an identifier with
`extractUuid` (failing when none is found) and fetch the secured URL from the
secondary provider. -/
def getRecordingUrlFromFallback (env : ResolveEnv) (callRecordId : String) : ResolveOut :=
  match env.voiceRecording with
  | .error m => ⟨.error (.zohoFetch m), 0⟩
  | .ok voiceRecording =>
    if voiceRecording = "" || jsTrim voiceRecording = "" then
      ⟨.error (.emptyField callRecordId), 0⟩
    else
      let voiceRecordingStr := jsTrim voiceRecording
      if isDirectDownloadUrl voiceRecordingStr then
        ⟨.ok voiceRecordingStr, 0⟩
      else
        let uuid := extractUuid voiceRecordingStr
        if uuid = "" then ⟨.error (.noUuid voiceRecordingStr), 0⟩
        else
          match env.knowlarity uuid with
          | .ok securedUrl => ⟨.ok securedUrl, 1⟩
          | .error m => ⟨.error (.knowlarityFetch m), 1⟩

/-! ## `part_001` (`index.js`): the `RequestQueue` concurrency controller

The queue is modelled as a labelled transition system whose atomic steps are
exactly the synchronous blocks of the JavaScript (which runs each such block to
completion before any other code interleaves):

* `add id` — the synchronous body of `addRequest` (admission test, push, counters);
* `dispatch` — one iteration of the `processQueue` while-loop up to the `await`
  of the handler (shift, `activeRequests.set`, counters);
* `settle id ok` — a dispatched handler settles: resolve/reject, `completed`/`failed`
  counter, then the `finally` block (`activeRequests.delete`, `processing--`);
* `clear` — `clearQueue` (reject all backlog entries, empty the array, `queued = 0`).

Arbitrary interleavings of these steps over-approximate every schedule that
overlapping `processQueue` invocations and `setImmediate` continuations can produce.
`active` holds the insertion-ordered keys of the `activeRequests` `Map` (so a
duplicate id does not grow it), while `running` is the multiset of dispatched
handlers that have not yet settled. -/

/-- The queue's statistics object, `this.requestStats`. -/
structure QueueStats where
  total : Nat
  completed : Nat
  failed : Nat
  queued : Int
  processing : Int
deriving DecidableEq, Repr

/-- The mutable state of a `RequestQueue` instance. -/
structure QueueState where
  maxConcurrent : Nat
  maxQueueSize : Nat
  queue : List Nat
  active : List Nat
  running : List Nat
  stats : QueueStats
deriving DecidableEq, Repr

/-- Constructor `new RequestQueue(maxConcurrent, maxQueueSize)`. -/
def RequestQueue.init (mc mq : Nat) : QueueState :=
  ⟨mc, mq, [], [], [], ⟨0, 0, 0, 0, 0⟩⟩

/-- The rejection message built by `addRequest` when the backlog is full. -/
def queueFullMessage (mq : Nat) : String :=
  "Queue is full. Maximum " ++ (toString mq ++ " requests can be queued. Please try again later.")

/-- JS `Map.set k v` on the key list: replacing an existing key keeps the size,
a new key is appended. -/
def mapSetKey (ks : List Nat) (id : Nat) : List Nat :=
  if id ∈ ks then ks else ks ++ [id]

/-- Method `addRequest(requestId, …)`: reject immediately (leaving the state untouched)
with the queue-full error message when the backlog already holds `maxQueueSize`
entries, otherwise push onto the backlog and bump `total`/`queued`. -/
def addRequest (s : QueueState) (id : Nat) : QueueState × Except String Unit :=
  if s.queue.length ≥ s.maxQueueSize then (s, .error (queueFullMessage s.maxQueueSize))
  else
    ({ s with
        queue := s.queue ++ [id]
        stats := { s.stats with total := s.stats.total + 1, queued := s.stats.queued + 1 } },
      .ok ())

/-- One iteration of the `processQueue` loop, when its guard
`queue.length > 0 && activeRequests.size < maxConcurrent` holds: shift the oldest
entry, `activeRequests.set`, `queued--`, `processing++`, and start its handler. -/
def dispatchStep (s : QueueState) : QueueState :=
  match s.queue with
  | [] => s
  | id :: rest =>
    if s.active.length < s.maxConcurrent then
      { s with
          queue := rest
          active := mapSetKey s.active id
          running := id :: s.running
          stats := { s.stats with queued := s.stats.queued - 1,
                                  processing := s.stats.processing + 1 } }
    else s

/-- Settlement of a dispatched handler: `completed++` or `failed++`, then the
`finally` block deletes the id from `activeRequests` and decrements `processing`.
Only ids with an unsettled dispatched handler can settle. -/
def settleStep (s : QueueState) (id : Nat) (ok : Bool) : QueueState :=
  if id ∈ s.running then
    { s with
        active := s.active.erase id
        running := s.running.erase id
        stats :=
          { s.stats with
              completed := if ok then s.stats.completed + 1 else s.stats.completed
              failed := if ok then s.stats.failed else s.stats.failed + 1
              processing := s.stats.processing - 1 } }
  else s

/-- Method `clearQueue()`: reject every queued entry, empty the backlog, `queued = 0`. -/
def clearQueue (s : QueueState) : QueueState :=
  { s with queue := [], stats := { s.stats with queued := 0 } }

/-- Observable queue events. -/
inductive QEvent
  | add (id : Nat)
  | dispatch
  | settle (id : Nat) (ok : Bool)
  | clear
deriving DecidableEq, Repr

/-- Transition function of the queue system. -/
def qstep (s : QueueState) : QEvent → QueueState
  | .add id => (addRequest s id).1
  | .dispatch => dispatchStep s
  | .settle id ok => settleStep s id ok
  | .clear => clearQueue s

/-- Run a sequence of events from a state. -/
def qrun (s : QueueState) (evs : List QEvent) : QueueState := evs.foldl qstep s

/-- The ids submitted by the `add` events of a trace. -/
def addIds : List QEvent → List Nat
  | [] => []
  | .add id :: rest => id :: addIds rest
  | .dispatch :: rest => addIds rest
  | .settle _ _ :: rest => addIds rest
  | .clear :: rest => addIds rest

/-- The HTTP error mapping of the `POST /process-audio` handler in `part_001`:
a failure whose message contains `'Queue is full'` becomes a 503 (with queue
stats attached), everything else a 500. -/
def processAudioErrorStatus (msg : String) : Nat :=
  if strIncludes msg "Queue is full" then 503 else 500

/-! ## `part_001` (`index.js`): `rateLimitMiddleware`

Per-client fixed-window rate limiting. The model is per client key: the map entry
for one key, threaded through that key's successive requests. -/

/-- One entry of `rateLimitMap`: `{ count, resetTime }`. -/
structure RLEntry where
  count : Nat
  resetTime : Nat
deriving DecidableEq, Repr

/-- The middleware's verdict for one request: pass the request on, or answer 429
with the given `retryAfter` (in seconds, `Math.ceil((resetTime - now) / 1000)`). -/
inductive RLVerdict
  | next
  | reject (status : Nat) (retryAfter : Int)
deriving DecidableEq, Repr

/-- JS `Math.ceil(x / 1000)` for integer `x`. -/
def ceilDivThousand (x : Int) : Int := (x + 999) / 1000

/-- One execution of `rateLimitMiddleware` for a given client key: create the
entry `{count: 0, resetTime: now + window}` when absent; lazily reset it when
`now > resetTime`; reject with 429 and a `retryAfter` estimate when
`count >= max`; otherwise increment and admit. -/
def rateLimitStep (window maxReq : Nat) (entry : Option RLEntry) (now : Nat) :
    RLEntry × RLVerdict :=
  let clientData := entry.getD ⟨0, now + window⟩
  let clientData :=
    if now > clientData.resetTime then ⟨0, now + window⟩ else clientData
  if clientData.count ≥ maxReq then
    (clientData, .reject 429 (ceilDivThousand ((clientData.resetTime : Int) - (now : Nat))))
  else
    ({ clientData with count := clientData.count + 1 }, .next)

/-- Process the requests of one client (given by their `Date.now()` values) against
its rate-limit entry, collecting the verdicts. -/
def rateLimitRun (window maxReq : Nat) (entry : Option RLEntry) :
    List Nat → RLEntry × List RLVerdict
  | [] => (entry.getD ⟨0, 0⟩, [])
  | now :: rest =>
    let sv := rateLimitStep window maxReq entry now
    let rv := rateLimitRun window maxReq (some sv.1) rest
    (rv.1, sv.2 :: rv.2)

/-! ## Canonical `src/lib/processAudio.js` snapshot: the pipeline executor

The second (most recent) snapshot of `processAudio.js` is modelled: it is the one
with the empty-transcript check and the Zoho retry loop. External calls are
oracle fields of `PipelineEnv`; the local filesystem is the list of existing
paths (a path set: `writeFileSync` is insert, `unlinkSync` is erase,
`existsSync` is membership). -/

/-- JS truthiness of a possibly-absent string field. -/
def jsTruthy : Option String → Bool
  | none => false
  | some s => s ≠ ""

/-- Read a field of the (object-shaped) request body. -/
def bodyGet (body : List (String × String)) (k : String) : Option String :=
  (body.find? fun p => p.1 = k).map Prod.snd

/-- JS `a || b` on field reads: keep the first truthy value. -/
def jsOrField (a b : Option String) : Option String :=
  if jsTruthy a then a else b

/-- The alias keys the parser recognises. -/
def possibleKeys : List String :=
  ["Call_Record_ID", "Call_Recording_URL", "call_record_id", "call_recording_url",
   "recordId", "recordingUrl"]

/-- The `requestData` reshaping of `processAudioRequest`: keep the body whole when
`Call_Record_ID` is truthy; otherwise keep the truthy alias keys when any exist,
else the raw body. -/
def requestDataOf (body : List (String × String)) : List (String × String) :=
  if jsTruthy (bodyGet body "Call_Record_ID") then body
  else
    let foundData := possibleKeys.filterMap fun k =>
      match bodyGet body k with
      | some v => if v ≠ "" then some (k, v) else none
      | none => none
    if foundData.length ≠ 0 then foundData else body

/-- Alias chain `requestData.Call_Record_ID || requestData.call_record_id || requestData.recordId`. -/
def callRecordIdOf (rd : List (String × String)) : Option String :=
  jsOrField (bodyGet rd "Call_Record_ID")
    (jsOrField (bodyGet rd "call_record_id") (bodyGet rd "recordId"))

/-- Alias chain `requestData.Call_Recording_URL || requestData.call_recording_url || requestData.recordingUrl`. -/
def callRecordingUrlOf (rd : List (String × String)) : Option String :=
  jsOrField (bodyGet rd "Call_Recording_URL")
    (jsOrField (bodyGet rd "call_recording_url") (bodyGet rd "recordingUrl"))

/-- Errors a pipeline run can settle with. -/
inductive PErr
  | missingRecordId
  | resolutionFailed (msg : String)
  | downloadFailed (msg : String)
  | transcriptionFailed (msg : String)
  | emptyTranscript
  | tokenFailed (msg : String)
  | zohoPutFailed (payload : String)
  | constAssignmentTypeError
deriving DecidableEq, Repr

/-- The externally visible success value of a run. -/
structure POk where
  recordId : String
  transcript : String
deriving DecidableEq, Repr

/-- Outcome of one `axios.put` against the Zoho record: success, or an error whose
response data serialises (via `JSON.stringify ∘ parseErrorData`) to `payload`. -/
inductive PutOutcome
  | ok
  | err (payload : String)

/-- Test `isAuthError` of `processAudioRequest`: the stringified error data, lowercased,
contains `'authentication'` or `'auth_failure'` (the explicit
`code === 'AUTHENTICATION_FAILURE'` test is subsumed after lowercasing). -/
def isAuthError (payload : String) : Bool :=
  strIncludes (toLowerStr payload) "authentication" ||
    strIncludes (toLowerStr payload) "auth_failure"

/-- The `AI_Analysis` field-rejection test: the stringified error data, lowercased,
contains `'ai_analysis'`. -/
def isFieldError (payload : String) : Bool :=
  strIncludes (toLowerStr payload) "ai_analysis"

/-- The Zoho update retry loop (`while (retryCount <= maxRetries)`), faithful to
the JavaScript including its fatal flaw: `accessToken` is declared `const`
(`const accessToken = await getZohoAccessToken();`), so the retry path's
`accessToken = await getZohoAccessToken(true);` throws
`TypeError: Assignment to constant variable.` as soon as `retryCount > 0`.
The thrown `TypeError` carries no `response`, so neither retry test matches it
and it propagates. `oracle n` is the outcome of the `(n+1)`-th `axios.put`;
the returned `Nat` counts the puts actually performed.

The `retryCount > maxRetries` exit continues past the loop with `zohoResponse`
undefined, which the subsequent verification code tolerates — that branch is
unreachable from `retryCount = 0`. -/
def zohoUpdateGo (hasAnalysis : Bool) (oracle : Nat → PutOutcome) :
    Nat → Nat → Nat → Except PErr Unit × Nat
  | 0, _, puts => (.ok (), puts)
  | fuel + 1, retryCount, puts =>
    if retryCount ≤ 2 then
      if 0 < retryCount then (.error .constAssignmentTypeError, puts)
      else
        match oracle puts with
        | .ok => (.ok (), puts + 1)
        | .err payload =>
          if isAuthError payload && retryCount < 2 then
            zohoUpdateGo hasAnalysis oracle fuel (retryCount + 1) (puts + 1)
          else if hasAnalysis && isFieldError payload && retryCount == 0 then
            zohoUpdateGo hasAnalysis oracle fuel (retryCount + 1) (puts + 1)
          else (.error (.zohoPutFailed payload), puts + 1)
    else (.ok (), puts)

/-- Entry point of the retry loop: `retryCount = 0`, no puts performed yet. The
structural fuel `3` bounds the loop's iterations (its guard admits
`retryCount ∈ {0, 1, 2}` and every iteration increments `retryCount` or leaves
the loop), so the fuel-exhaustion branch is never taken. -/
def zohoUpdateLoop (hasAnalysis : Bool) (oracle : Nat → PutOutcome) :
    Except PErr Unit × Nat :=
  zohoUpdateGo hasAnalysis oracle 3 0 0

/-- Oracle environment of one pipeline run. -/
structure PipelineEnv where
  /-- Outcome of `getRecordingUrlFromFallback` (used only when no URL was supplied). -/
  fallback : Except String String
  /-- Outcome of the audio download: body bytes and `content-type` header. -/
  download : Except String (List Nat × String)
  /-- `Date.now()` when the temp file name is built. -/
  timestamp : Nat
  /-- Outcome of the Whisper translation call: the transcript text. -/
  translate : Except String String
  /-- Outcome of `getZohoAccessToken()`. -/
  token : Except String String
  /-- `ANALYSIS_ENABLED`. -/
  analysisEnabled : Bool
  /-- Outcome of the analysis completion call: the message content. -/
  analysis : Except String String
  /-- Outcomes of the successive Zoho `axios.put` calls. -/
  zohoOutcome : Nat → PutOutcome

/-- Result of a settled pipeline run. -/
structure RunOut where
  result : Except PErr POk
  fs : List String
  tempPath : Option String
  zohoPuts : Nat
  /-- The text the speech-to-text stage returned, when that stage completed. -/
  transcript : Option String

/-- Node `fs.writeFileSync`: the path now exists (a path names at most one file). -/
def fsWrite (fs : List String) (p : String) : List String :=
  if p ∈ fs then fs else p :: fs

/-- The analysis text: `''` when analysis is disabled or its call failed, else the
trimmed completion content, sliced to 1190 chars plus an ellipsis when longer
than 1200 (so JS `if (analysisText)` is the test `≠ ""`). -/
def analysisTextOf (env : PipelineEnv) : String :=
  if env.analysisEnabled then
    match env.analysis with
    | .error _ => ""
    | .ok content =>
      let analysisText := jsTrim content
      if analysisText.length > 1200 then
        String.mk (analysisText.data.take 1190) ++ "…"
      else analysisText
  else ""

/-- The stages from transcription onward (they do not touch the filesystem):
translate, empty-transcript validation, token fetch, optional analysis, the Zoho
retry loop, and the success value. Returns (result, puts, transcript-returned). -/
def pipelineStages (env : PipelineEnv) (recordId : String) :
    Except PErr POk × Nat × Option String :=
  match env.translate with
  | .error m => (.error (.transcriptionFailed m), 0, none)
  | .ok transcriptText =>
    if jsTrim transcriptText = "" then (.error .emptyTranscript, 0, some transcriptText)
    else
      match env.token with
      | .error m => (.error (.tokenFailed m), 0, some transcriptText)
      | .ok _ =>
        let analysisText := analysisTextOf env
        match zohoUpdateLoop (analysisText ≠ "") env.zohoOutcome with
        | (.ok _, puts) => (.ok ⟨recordId, transcriptText⟩, puts, some transcriptText)
        | (.error e, puts) => (.error e, puts, some transcriptText)

/-- The early phase of a run, before any file is written: body parsing, record-id
validation, recording-URL resolution (with fallback), download. Yields the record
id, the resolved URL, the downloaded bytes and the `content-type` header. -/
def earlyPhase (env : PipelineEnv) (body : List (String × String)) :
    Except PErr (String × String × List Nat × String) :=
  let requestData := requestDataOf body
  match callRecordIdOf requestData with
  | none => .error .missingRecordId
  | some recordId =>
    let urlField := callRecordingUrlOf requestData
    let resolved :=
      match urlField with
      | none => env.fallback
      | some u => if jsTrim u = "" then env.fallback else .ok u
    match resolved with
    | .error m => .error (.resolutionFailed m)
    | .ok recordingUrl =>
      match env.download with
      | .error m => .error (.downloadFailed m)
      | .ok (bytes, contentType) => .ok (recordId, recordingUrl, bytes, contentType)

/-- The body of the `try` block plus the file write: early phase, format
detection, temp-file persistence, then the fs-free later stages. -/
def processAudioCore (env : PipelineEnv) (body : List (String × String))
    (fs0 : List String) : RunOut :=
  match earlyPhase env body with
  | .error e => ⟨.error e, fs0, none, 0, none⟩
  | .ok (recordId, recordingUrl, bytes, contentType) =>
    let fileExtension := detectFileExtension bytes contentType recordingUrl
    let tempFilePath :=
      "temp/audio_" ++ recordId ++ "_" ++ (toString env.timestamp ++ ("." ++ fileExtension))
    let fs1 := fsWrite fs0 tempFilePath
    let spt := pipelineStages env recordId
    ⟨spt.1, fs1, some tempFilePath, spt.2.1, spt.2.2⟩

/-- A whole settled run: the `try` body wrapped by the `finally` cleanup
(`if (tempFilePath && fs.existsSync(tempFilePath)) fs.unlinkSync(tempFilePath)`). -/
def processAudioRequest (env : PipelineEnv) (body : List (String × String))
    (fs0 : List String) : RunOut :=
  let core := processAudioCore env body fs0
  match core.tempPath with
  | none => core
  | some p => { core with fs := if p ∈ core.fs then core.fs.erase p else core.fs }

/-! ## Shared sample inputs (used by witnesses) -/

/-- A well-formed webhook body carrying both the record id and a direct URL. -/
def sampleBody : List (String × String) :=
  [("Call_Record_ID", "REC123"), ("Call_Recording_URL", "https://cdn.example.com/a.mp3")]

/-- A benign environment: every external call succeeds. -/
def sampleEnv : PipelineEnv :=
  ⟨.ok "https://cdn.example.com/a.mp3", .ok ([], "audio/mpeg"), 42, .ok "hello world",
    .ok "tok", false, .error "disabled", fun _ => .ok⟩

/-! ## Helper lemmas -/

theorem isPrefixOf_append_left {p a : List Char} (b : List Char)
    (h : p.isPrefixOf a = true) : p.isPrefixOf (a ++ b) = true := by
  induction p generalizing a with
  | nil => simp [List.isPrefixOf]
  | cons c p ih =>
    cases a with
    | nil => simp [List.isPrefixOf] at h
    | cons d a =>
      simp only [List.cons_append, List.isPrefixOf, Bool.and_eq_true] at h ⊢
      exact ⟨h.1, ih h.2⟩

theorem subOccurs_of_isPrefixOf {p l : List Char} (h : p.isPrefixOf l = true) :
    subOccurs p l = true := by
  cases l with
  | nil =>
    cases p with
    | nil => rfl
    | cons c t => simp [List.isPrefixOf] at h
  | cons c t =>
    simp only [subOccurs, Bool.or_eq_true]
    exact Or.inl h

/-- Any queue-full rejection message contains `'Queue is full'`. -/
theorem strIncludes_queueFullMessage (mq : Nat) :
    strIncludes (queueFullMessage mq) "Queue is full" = true := by
  apply subOccurs_of_isPrefixOf
  show ("Queue is full".data).isPrefixOf ("Queue is full. Maximum ".data ++ _) = true
  exact isPrefixOf_append_left _ (by decide)

/-! ## Claim theorems -/

/-- Claim C2 — When the backlog already holds `maxQueueSize` entries, `addRequest`
rejects immediately with the queue-full error: the returned promise is rejected
(no blocking, no silent drop), the entire queue state — backlog, active set and
stats — is left unchanged, and the `POST /process-audio` handler maps that error
message to a 503 response carrying queue stats. -/
theorem addRequest_rejects_when_full (s : QueueState) (id : Nat)
    (hfull : s.maxQueueSize ≤ s.queue.length) :
    addRequest s id = (s, .error (queueFullMessage s.maxQueueSize)) ∧
    processAudioErrorStatus (queueFullMessage s.maxQueueSize) = 503 := by
  refine ⟨?_, ?_⟩
  · unfold addRequest
    rw [if_pos hfull]
  · unfold processAudioErrorStatus
    rw [strIncludes_queueFullMessage, if_pos rfl]

/-- Witness for **C2**: a queue with `maxQueueSize = 2` whose backlog holds two
entries rejects a third submission untouched, with a 503 mapping. -/
theorem addRequest_rejects_when_full_witness :
    addRequest ⟨5, 2, [8, 9], [], [], ⟨2, 0, 0, 2, 0⟩⟩ 3
      = (⟨5, 2, [8, 9], [], [], ⟨2, 0, 0, 2, 0⟩⟩, .error (queueFullMessage 2)) ∧
    processAudioErrorStatus (queueFullMessage 2) = 503 :=
  addRequest_rejects_when_full ⟨5, 2, [8, 9], [], [], ⟨2, 0, 0, 2, 0⟩⟩ 3 (by decide)

/-- Claim C6 (amended) — Format detection is a pure total function with the priority
order: a declared content type matching the table always wins (any content type
declaring `audio/wav` yields `wav` whatever the URL or bytes say); with an
unmapped content type, the URL-extension pattern decides (`.../clip.flac?x=1`
yields `flac` for any payload); with neither hint, byte-signature sniffing
decides **provided the payload is strictly longer than 12 bytes** (a
`RIFF....WAVE` header then yields `wav`); otherwise the default `mp3` is
returned. -/
theorem detectFileExtension_priority :
    (∀ bytes url ct, strIncludes ct "audio/wav" = true →
        detectFileExtension bytes ct url = "wav") ∧
    (∀ bytes, detectFileExtension bytes "" "https://x.test/clip.flac?x=1" = "flac") ∧
    (∀ bytes, 12 < bytes.length → bufAscii bytes 0 4 = "RIFF" →
        bufAscii bytes 8 12 = "WAVE" → detectFileExtension bytes "" "" = "wav") ∧
    detectFileExtension [] "" "" = "mp3" := by
  refine ⟨?_, fun _ => rfl, ?_, rfl⟩
  · intro bytes url ct hct
    unfold detectFileExtension
    simp [hct]
  · intro bytes hlen h1 h2
    unfold detectFileExtension
    simp [h1, h2, hlen]
    intro _ _
    decide

/-- Counterexample for **C6** as stated: a payload of exactly 12 bytes beginning
`RIFF....WAVE`, with no content type and no URL hint, is *not* detected as `wav`
(the sniffing branch requires strictly more than 12 bytes); the default `mp3`
is returned instead. -/
theorem detectFileExtension_12byte_cex :
    detectFileExtension [0x52, 0x49, 0x46, 0x46, 1, 2, 3, 4, 0x57, 0x41, 0x56, 0x45] "" ""
        = "mp3" ∧
    ¬ detectFileExtension [0x52, 0x49, 0x46, 0x46, 1, 2, 3, 4, 0x57, 0x41, 0x56, 0x45] "" ""
        = "wav" := by
  decide

/-- Witness for **C6**: the amended priority facts at concrete inputs — content
type wins over a `.mp3` URL, the `.flac` URL decides without a content type, and
a 13-byte `RIFF....WAVE` payload sniffs as `wav`. -/
theorem detectFileExtension_priority_witness :
    strIncludes "audio/wav" "audio/wav" = true ∧
    detectFileExtension [1, 2, 3] "audio/wav" "https://x.test/a.mp3" = "wav" ∧
    detectFileExtension [1, 2, 3] "" "https://x.test/clip.flac?x=1" = "flac" ∧
    (12 < ([0x52, 0x49, 0x46, 0x46, 1, 2, 3, 4, 0x57, 0x41, 0x56, 0x45, 9] : List Nat).length ∧
      detectFileExtension [0x52, 0x49, 0x46, 0x46, 1, 2, 3, 4, 0x57, 0x41, 0x56, 0x45, 9] "" ""
        = "wav") :=
  ⟨by decide,
    detectFileExtension_priority.1 [1, 2, 3] "https://x.test/a.mp3" "audio/wav" (by decide),
    detectFileExtension_priority.2.1 [1, 2, 3],
    by decide,
    detectFileExtension_priority.2.2.1 [0x52, 0x49, 0x46, 0x46, 1, 2, 3, 4, 0x57, 0x41, 0x56, 0x45, 9]
      (by decide) (by decide) (by decide)⟩

/-- Claim C7 — A recording reference that, after trimming, starts with an http(s)
scheme and is not from the phonebridge domain is returned unchanged with zero
secondary-provider calls; a phonebridge reference instead goes through UUID
extraction and the secured-URL lookup (exactly one secondary-provider call,
whose outcome becomes the resolver's). -/
theorem recordingUrl_passThrough :
    (∀ (env : ResolveEnv) (rid v : String), env.voiceRecording = .ok v →
        isDirectDownloadUrl (jsTrim v) = true →
        getRecordingUrlFromFallback env rid = ⟨.ok (jsTrim v), 0⟩) ∧
    (∀ (env : ResolveEnv) (rid v u : String), env.voiceRecording = .ok v →
        isPhonebridgeUrl (jsTrim v) = true →
        extractUuid (jsTrim v) = u → ¬ u = "" →
        getRecordingUrlFromFallback env rid =
          ⟨(match env.knowlarity u with
            | .ok s => .ok s
            | .error m => .error (.knowlarityFetch m)), 1⟩) := by
  constructor
  · intro env rid v hv hdirect
    have hne : ¬ jsTrim v = "" := by
      intro h; rw [h] at hdirect; exact absurd hdirect (by decide)
    have hvne : ¬ v = "" := by
      intro h; apply hne; rw [h]; decide
    simp only [getRecordingUrlFromFallback, hv]
    rw [if_neg (by simp [hvne, hne])]
    rw [if_pos hdirect]
  · intro env rid v u hv hpb hu hune
    have hne : ¬ jsTrim v = "" := by
      intro h; rw [h] at hpb; exact absurd hpb (by decide)
    have hvne : ¬ v = "" := by
      intro h; apply hne; rw [h]; decide
    have hdir : ¬ isDirectDownloadUrl (jsTrim v) = true := by
      simp [isDirectDownloadUrl, hpb]
    simp only [getRecordingUrlFromFallback, hv]
    rw [if_neg (by simp [hvne, hne])]
    rw [if_neg hdir]
    simp only [hu]
    rw [if_neg hune]
    cases henv : env.knowlarity u <;> simp

/-- Witness for **C7**: `https://cdn.example.com/a.mp3` passes through unchanged
with zero Knowlarity calls, while a phonebridge reference makes exactly one
Knowlarity call with the extracted UUID. -/
theorem recordingUrl_passThrough_witness :
    getRecordingUrlFromFallback
        ⟨.ok "https://cdn.example.com/a.mp3", fun _ => .error "unused"⟩ "R1"
      = ⟨.ok "https://cdn.example.com/a.mp3", 0⟩ ∧
    getRecordingUrlFromFallback
        ⟨.ok "https://phonebridge.zoho.com/t/recording/11aff2d5-39e7-4a0b-b7cd-461fde93f44c?serviceID=9",
          fun u => .ok ("sec/" ++ u)⟩ "R1"
      = ⟨.ok "sec/11aff2d5-39e7-4a0b-b7cd-461fde93f44c", 1⟩ :=
  ⟨recordingUrl_passThrough.1
      ⟨.ok "https://cdn.example.com/a.mp3", fun _ => .error "unused"⟩ "R1"
      "https://cdn.example.com/a.mp3" rfl (by decide),
    recordingUrl_passThrough.2
      ⟨.ok "https://phonebridge.zoho.com/t/recording/11aff2d5-39e7-4a0b-b7cd-461fde93f44c?serviceID=9",
        fun u => .ok ("sec/" ++ u)⟩ "R1"
      "https://phonebridge.zoho.com/t/recording/11aff2d5-39e7-4a0b-b7cd-461fde93f44c?serviceID=9"
      "11aff2d5-39e7-4a0b-b7cd-461fde93f44c" rfl (by decide) (by decide) (by decide)⟩

/-- Claim C8 — Identifier extraction applies the ordered pattern strategy, first
match wins: (a) `/recording/` + canonical UUID (it wins even when a bare UUID
occurs earlier in the string), then (b) `/recording/{token}` of any shape, then
(c) a bare UUID anywhere; the spec's example extracts its UUID; and when no
pattern matches, the resolver fails with a resolution error instead of
returning an identifier. -/
theorem extractUuid_strategy :
    extractUuid
        "https://phonebridge.zoho.com/phonebridge/t/recording/11aff2d5-39e7-4a0b-b7cd-461fde93f44c?serviceID=9"
      = "11aff2d5-39e7-4a0b-b7cd-461fde93f44c" ∧
    extractUuid
        "33cff2d5-39e7-4a0b-b7cd-461fde93f44c before /recording/11aff2d5-39e7-4a0b-b7cd-461fde93f44c"
      = "11aff2d5-39e7-4a0b-b7cd-461fde93f44c" ∧
    extractUuid "/recording/not-a-uuid?x=1" = "not-a-uuid" ∧
    extractUuid " 11aff2d5-39e7-4a0b-b7cd-461fde93f44c " = "11aff2d5-39e7-4a0b-b7cd-461fde93f44c" ∧
    (∀ (env : ResolveEnv) (rid v : String), env.voiceRecording = .ok v →
        ¬ jsTrim v = "" → isDirectDownloadUrl (jsTrim v) = false →
        extractUuid (jsTrim v) = "" →
        getRecordingUrlFromFallback env rid = ⟨.error (.noUuid (jsTrim v)), 0⟩) := by
  refine ⟨by decide, by decide, by decide, by decide, ?_⟩
  intro env rid v hv hne hdir hu
  have hvne : ¬ v = "" := by
    intro h; apply hne; rw [h]; decide
  simp only [getRecordingUrlFromFallback, hv]
  rw [if_neg (by simp [hvne, hne])]
  rw [if_neg (by simp [hdir])]
  simp [hu]

/-- Witness for **C8**: a reference with no URL scheme, no `/recording/` segment
and no UUID shape makes the resolver fail with `noUuid` and zero provider calls. -/
theorem extractUuid_strategy_witness :
    ¬ jsTrim "no identifier here" = "" ∧
    isDirectDownloadUrl (jsTrim "no identifier here") = false ∧
    extractUuid (jsTrim "no identifier here") = "" ∧
    getRecordingUrlFromFallback ⟨.ok "no identifier here", fun _ => .ok "x"⟩ "R1"
      = ⟨.error (.noUuid (jsTrim "no identifier here")), 0⟩ :=
  ⟨by decide, by decide, by decide,
    extractUuid_strategy.2.2.2.2 ⟨.ok "no identifier here", fun _ => .ok "x"⟩ "R1"
      "no identifier here" rfl (by decide) (by decide) (by decide)⟩

theorem processAudioRequest_projEq (env : PipelineEnv) (body : List (String × String))
    (fs0 : List String) :
    (processAudioRequest env body fs0).result = (processAudioCore env body fs0).result ∧
    (processAudioRequest env body fs0).transcript = (processAudioCore env body fs0).transcript ∧
    (processAudioRequest env body fs0).zohoPuts = (processAudioCore env body fs0).zohoPuts ∧
    (processAudioRequest env body fs0).tempPath = (processAudioCore env body fs0).tempPath := by
  unfold processAudioRequest
  cases hc : (processAudioCore env body fs0).tempPath <;> simp [hc]

theorem processAudioCore_fs_nodup (env : PipelineEnv) (body : List (String × String))
    (fs0 : List String) (h : fs0.Nodup) : (processAudioCore env body fs0).fs.Nodup := by
  unfold processAudioCore
  cases he : earlyPhase env body with
  | error e => simpa using h
  | ok v =>
    obtain ⟨rid, url, bytes, ct⟩ := v
    simp only []
    unfold fsWrite
    split
    · simpa using h
    · rename_i hnm
      exact List.nodup_cons.mpr ⟨hnm, h⟩

/-- Claim C4 — The intended CRM retry policy is unreachable: because `accessToken`
is declared `const`, the retry path's reassignment throws
`TypeError: Assignment to constant variable.`. A first-attempt authentication
failure, and likewise an `AI_Analysis` field rejection, therefore ends the run
with that `TypeError` after exactly one `axios.put` — no fresh-token retry and
no analysis-dropped retry is ever performed — while a non-retryable failure
surfaces directly and a successful first write needs no retry. -/
theorem zohoRetry_const_reassignment_bug :
    zohoUpdateLoop true (fun _ => .err "code AUTHENTICATION_FAILURE invalid oauth token")
      = (.error .constAssignmentTypeError, 1) ∧
    zohoUpdateLoop true (fun _ => .err "the field AI_Analysis is not valid")
      = (.error .constAssignmentTypeError, 1) ∧
    zohoUpdateLoop false (fun _ => .err "INTERNAL SERVER ERROR")
      = (.error (.zohoPutFailed "INTERNAL SERVER ERROR"), 1) ∧
    zohoUpdateLoop true (fun _ => .ok) = (.ok (), 1) := by
  decide

/-- Claim C5 — For every run that created its temp audio artifact — and for every
run at all — the artifact path does not exist on the (duplicate-free) filesystem
once the run settles, success or failure: the `finally` block unlinks it on
every exit path. -/
theorem tempArtifact_cleanup (env : PipelineEnv) (body : List (String × String))
    (fs0 : List String) (hnd : fs0.Nodup) (p : String)
    (hp : (processAudioRequest env body fs0).tempPath = some p) :
    ¬ p ∈ (processAudioRequest env body fs0).fs := by
  have hcore : (processAudioCore env body fs0).fs.Nodup :=
    processAudioCore_fs_nodup env body fs0 hnd
  cases hc : (processAudioCore env body fs0).tempPath with
  | none => simp [processAudioRequest, hc] at hp
  | some q =>
    simp only [processAudioRequest, hc] at hp ⊢
    have hqp : q = p := by simpa using hp
    subst hqp
    by_cases hm : q ∈ (processAudioCore env body fs0).fs
    · rw [if_pos hm]
      intro hmem
      exact absurd ((hcore.mem_erase_iff).mp hmem).1 (by simp)
    · rw [if_neg hm]
      exact hm

/-- Witness for **C5**: a fully successful run on an empty filesystem creates
`temp/audio_REC123_42.mp3` and the path is gone once the run settles. -/
theorem tempArtifact_cleanup_witness :
    ([] : List String).Nodup ∧
    (processAudioRequest sampleEnv sampleBody []).tempPath = some "temp/audio_REC123_42.mp3" ∧
    ¬ "temp/audio_REC123_42.mp3" ∈ (processAudioRequest sampleEnv sampleBody []).fs :=
  ⟨by decide, by decide,
    tempArtifact_cleanup sampleEnv sampleBody [] (by decide) "temp/audio_REC123_42.mp3" (by decide)⟩

/-- Claim C9 — A run whose speech-to-text stage returned empty-or-blank text fails
with the empty-transcript error and performs zero CRM writes; and no run ever
settles successfully with a blank transcript. -/
theorem emptyTranscript_fails (env : PipelineEnv) (body : List (String × String))
    (fs0 : List String) :
    (∀ t, (processAudioRequest env body fs0).transcript = some t → jsTrim t = "" →
        (processAudioRequest env body fs0).result = .error .emptyTranscript ∧
        (processAudioRequest env body fs0).zohoPuts = 0) ∧
    (∀ r, (processAudioRequest env body fs0).result = .ok r → ¬ jsTrim r.transcript = "") := by
  obtain ⟨hres, htr, hputs, -⟩ := processAudioRequest_projEq env body fs0
  rw [hres, htr, hputs]
  unfold processAudioCore
  cases he : earlyPhase env body with
  | error e => exact ⟨by simp, by simp⟩
  | ok v =>
    obtain ⟨rid, url, bytes, ct⟩ := v
    simp only []
    unfold pipelineStages
    cases ht : env.translate with
    | error m => exact ⟨by simp, by simp⟩
    | ok t0 =>
      simp only []
      by_cases htrim : jsTrim t0 = ""
      · rw [if_pos htrim]
        constructor
        · intro t hsome _
          simp at hsome
          exact ⟨rfl, rfl⟩
        · intro r hr
          simp at hr
      · rw [if_neg htrim]
        cases htok : env.token with
        | error m =>
          constructor
          · intro t hsome htt
            simp at hsome
            subst hsome
            exact absurd htt htrim
          · intro r hr
            simp at hr
        | ok tk =>
          cases hz : zohoUpdateLoop (analysisTextOf env ≠ "") env.zohoOutcome with
          | mk zres zputs =>
            cases zres with
            | ok u =>
              constructor
              · intro t hsome htt
                simp at hsome
                subst hsome
                exact absurd htt htrim
              · intro r hr
                simp at hr
                subst hr
                exact htrim
            | error e =>
              constructor
              · intro t hsome htt
                simp at hsome
                subst hsome
                exact absurd htt htrim
              · intro r hr
                simp at hr

/-- Witness for **C9**: a run whose transcription returns whitespace fails with
the empty-transcript error and never reaches the CRM write. -/
theorem emptyTranscript_fails_witness :
    (processAudioRequest { sampleEnv with translate := .ok "  " } sampleBody []).transcript
        = some "  " ∧
    jsTrim "  " = "" ∧
    (processAudioRequest { sampleEnv with translate := .ok "  " } sampleBody []).result
        = .error .emptyTranscript ∧
    (processAudioRequest { sampleEnv with translate := .ok "  " } sampleBody []).zohoPuts = 0 :=
  ⟨by decide, by decide,
    ((emptyTranscript_fails { sampleEnv with translate := .ok "  " } sampleBody []).1 "  "
        (by decide) (by decide)).1,
    ((emptyTranscript_fails { sampleEnv with translate := .ok "  " } sampleBody []).1 "  "
        (by decide) (by decide)).2⟩

/-- The inductive invariant of the queue system along fresh-id traces: backlog and
running handlers share no id, the `activeRequests` keys are the running handlers
up to order, the active set respects `maxConcurrent`, and the stats counters
track the backlog length and the running-handler count. -/
def QInv (s : QueueState) : Prop :=
  (s.queue ++ s.running).Nodup ∧
  s.active.Perm s.running ∧
  s.active.length ≤ s.maxConcurrent ∧
  s.stats.queued = (s.queue.length : Int) ∧
  s.stats.processing = (s.running.length : Int)

theorem qstep_add (s : QueueState) (j : Nat) : qstep s (.add j) = (addRequest s j).1 := rfl

theorem qstep_dispatch (s : QueueState) : qstep s .dispatch = dispatchStep s := rfl

theorem qstep_settle (s : QueueState) (id : Nat) (ok : Bool) :
    qstep s (.settle id ok) = settleStep s id ok := rfl

theorem qstep_clear (s : QueueState) : qstep s .clear = clearQueue s := rfl

theorem addRequest_full {s : QueueState} (id : Nat) (h : s.queue.length ≥ s.maxQueueSize) :
    addRequest s id = (s, .error (queueFullMessage s.maxQueueSize)) := by
  unfold addRequest
  rw [if_pos h]

theorem addRequest_notFull {s : QueueState} (id : Nat) (h : ¬ s.queue.length ≥ s.maxQueueSize) :
    addRequest s id =
      ({ s with
          queue := s.queue ++ [id]
          stats := { s.stats with total := s.stats.total + 1,
                                  queued := s.stats.queued + 1 } }, .ok ()) := by
  unfold addRequest
  rw [if_neg h]

theorem qstep_maxConcurrent (s : QueueState) (e : QEvent) :
    (qstep s e).maxConcurrent = s.maxConcurrent := by
  cases e with
  | add j =>
    rw [qstep_add]
    by_cases h : s.queue.length ≥ s.maxQueueSize
    · rw [addRequest_full j h]
    · rw [addRequest_notFull j h]
  | dispatch =>
    rw [qstep_dispatch]
    unfold dispatchStep
    split
    · rfl
    · split <;> rfl
  | settle id ok =>
    rw [qstep_settle]
    unfold settleStep
    split <;> rfl
  | clear => rfl

theorem qrun_maxConcurrent (evs : List QEvent) : ∀ s : QueueState,
    (qrun s evs).maxConcurrent = s.maxConcurrent := by
  induction evs with
  | nil => intro s; rfl
  | cons e rest ih =>
    intro s
    show (qrun (qstep s e) rest).maxConcurrent = _
    rw [ih, qstep_maxConcurrent]

theorem qstep_preserves (s : QueueState) (e : QEvent) (hinv : QInv s)
    (hfresh : ∀ j, e = QEvent.add j → ¬ j ∈ s.queue ∧ ¬ j ∈ s.running) :
    QInv (qstep s e) := by
  obtain ⟨hnd, hperm, hle, hq, hp⟩ := hinv
  cases e with
  | add j =>
    obtain ⟨hjq, hjr⟩ := hfresh j rfl
    rw [qstep_add]
    by_cases hfull : s.queue.length ≥ s.maxQueueSize
    · rw [addRequest_full j hfull]
      exact ⟨hnd, hperm, hle, hq, hp⟩
    · rw [addRequest_notFull j hfull]
      refine ⟨?_, hperm, hle, ?_, hp⟩
      · show ((s.queue ++ [j]) ++ s.running).Nodup
        have hjqr : ¬ j ∈ s.queue ++ s.running := by
          simp only [List.mem_append]
          rintro (h | h)
          · exact hjq h
          · exact hjr h
        have hpm : (j :: (s.queue ++ s.running)).Perm ((s.queue ++ [j]) ++ s.running) := by
          have hr : (s.queue ++ [j]) ++ s.running = s.queue ++ (j :: s.running) := by simp
          rw [hr]
          exact List.perm_middle.symm
        exact hpm.nodup (List.nodup_cons.mpr ⟨hjqr, hnd⟩)
      · show s.stats.queued + 1 = ((s.queue ++ [j]).length : Int)
        rw [hq]
        simp only [List.length_append, List.length_cons, List.length_nil]
        push_cast
        omega
  | dispatch =>
    rw [qstep_dispatch]
    unfold dispatchStep
    cases hqe : s.queue with
    | nil => exact ⟨by simpa [hqe] using hnd, hperm, hle, hq, hp⟩
    | cons id rest =>
      simp only []
      have hnd' : (id :: (rest ++ s.running)).Nodup := by
        rw [hqe] at hnd
        simpa using hnd
      have hidr : ¬ id ∈ s.running := fun h =>
        (List.nodup_cons.mp hnd').1 (List.mem_append.mpr (Or.inr h))
      have hida : ¬ id ∈ s.active := fun h => hidr (hperm.mem_iff.mp h)
      by_cases hlt : s.active.length < s.maxConcurrent
      · rw [if_pos hlt]
        refine ⟨?_, ?_, ?_, ?_, ?_⟩
        · show (rest ++ id :: s.running).Nodup
          exact (List.perm_middle.symm).nodup hnd'
        · show (mapSetKey s.active id).Perm (id :: s.running)
          unfold mapSetKey
          rw [if_neg hida]
          exact (List.perm_append_singleton id s.active).trans (hperm.cons id)
        · show (mapSetKey s.active id).length ≤ s.maxConcurrent
          unfold mapSetKey
          rw [if_neg hida]
          simpa using hlt
        · show s.stats.queued - 1 = (rest.length : Int)
          rw [hq, hqe]
          simp only [List.length_cons]
          push_cast
          omega
        · show s.stats.processing + 1 = ((id :: s.running).length : Int)
          rw [hp]
          simp only [List.length_cons]
          push_cast
          omega
      · rw [if_neg hlt]
        exact ⟨hnd, hperm, hle, hq, hp⟩
  | settle id ok =>
    rw [qstep_settle]
    unfold settleStep
    by_cases hmem : id ∈ s.running
    · rw [if_pos hmem]
      refine ⟨?_, hperm.erase id, ?_, hq, ?_⟩
      · show (s.queue ++ s.running.erase id).Nodup
        exact hnd.sublist ((List.erase_sublist id s.running).append_left s.queue)
      · show (s.active.erase id).length ≤ s.maxConcurrent
        exact le_trans (List.erase_sublist id s.active).length_le hle
      · show s.stats.processing - 1 = ((s.running.erase id).length : Int)
        have hlen := List.length_erase_add_one hmem
        rw [hp]
        omega
    · rw [if_neg hmem]
      exact ⟨hnd, hperm, hle, hq, hp⟩
  | clear =>
    rw [qstep_clear]
    unfold clearQueue
    refine ⟨?_, hperm, hle, by simp, hp⟩
    show (([] : List Nat) ++ s.running).Nodup
    simp only [List.nil_append]
    exact hnd.sublist (List.sublist_append_right s.queue s.running)

theorem qstep_notMem (s : QueueState) (e : QEvent) (x : Nat)
    (hq : ¬ x ∈ s.queue) (hr : ¬ x ∈ s.running)
    (hx : ∀ j, e = QEvent.add j → ¬ x = j) :
    ¬ x ∈ (qstep s e).queue ∧ ¬ x ∈ (qstep s e).running := by
  cases e with
  | add j =>
    rw [qstep_add]
    by_cases hfull : s.queue.length ≥ s.maxQueueSize
    · rw [addRequest_full j hfull]
      exact ⟨hq, hr⟩
    · rw [addRequest_notFull j hfull]
      refine ⟨?_, hr⟩
      show ¬ x ∈ s.queue ++ [j]
      simp only [List.mem_append, List.mem_singleton]
      rintro (h | h)
      · exact hq h
      · exact hx j rfl h
  | dispatch =>
    rw [qstep_dispatch]
    unfold dispatchStep
    cases hqe : s.queue with
    | nil => exact ⟨hq, hr⟩
    | cons id rest =>
      simp only []
      by_cases hlt : s.active.length < s.maxConcurrent
      · rw [if_pos hlt]
        constructor
        · show ¬ x ∈ rest
          intro hmem
          exact hq (hqe ▸ List.mem_cons_of_mem id hmem)
        · show ¬ x ∈ id :: s.running
          intro hmem
          rcases List.mem_cons.mp hmem with h | h
          · subst h
            exact hq (hqe ▸ List.mem_cons_self x rest)
          · exact hr h
      · rw [if_neg hlt]
        exact ⟨hq, hr⟩
  | settle id ok =>
    rw [qstep_settle]
    unfold settleStep
    by_cases hmem : id ∈ s.running
    · rw [if_pos hmem]
      exact ⟨hq, fun hm => hr (List.mem_of_mem_erase hm)⟩
    · rw [if_neg hmem]
      exact ⟨hq, hr⟩
  | clear =>
    rw [qstep_clear]
    unfold clearQueue
    exact ⟨by simp, hr⟩

theorem qrun_inv (evs : List QEvent) : ∀ s : QueueState, QInv s →
    (addIds evs).Nodup →
    (∀ j, j ∈ addIds evs → ¬ j ∈ s.queue ∧ ¬ j ∈ s.running) →
    QInv (qrun s evs) := by
  induction evs with
  | nil =>
    intro s h _ _
    exact h
  | cons e rest ih =>
    intro s hinv hnd hdisj
    have hstep : QInv (qstep s e) := by
      apply qstep_preserves s e hinv
      intro j hj
      apply hdisj
      rw [hj]
      simp [addIds]
    show QInv (qrun (qstep s e) rest)
    apply ih (qstep s e) hstep
    · cases e with
      | add j => exact (List.nodup_cons.mp hnd).2
      | dispatch => exact hnd
      | settle id ok => exact hnd
      | clear => exact hnd
    · intro x hx
      have hx' : x ∈ addIds (e :: rest) := by
        cases e with
        | add j => exact List.mem_cons_of_mem j hx
        | dispatch => exact hx
        | settle id ok => exact hx
        | clear => exact hx
      obtain ⟨hxq, hxr⟩ := hdisj x hx'
      apply qstep_notMem s e x hxq hxr
      intro j hj hxy
      cases hj
      exact (List.nodup_cons.mp hnd).1 (hxy ▸ hx)

theorem QInv_init (mc mq : Nat) : QInv (RequestQueue.init mc mq) := by
  refine ⟨?_, ?_, ?_, ?_, ?_⟩ <;> simp [RequestQueue.init]

/-- Claim C1 (amended) — Along every event trace whose submitted request ids are
pairwise distinct (as the HTTP layer's generated ids are), the number of
dispatched-but-unsettled pipeline runs never exceeds `maxConcurrent`, no matter
how `addRequest` calls, dispatch steps, settlements and clears interleave. -/
theorem requestQueue_concurrency_bound (mc mq : Nat) (evs : List QEvent)
    (hids : (addIds evs).Nodup) :
    (qrun (RequestQueue.init mc mq) evs).running.length ≤ mc := by
  obtain ⟨-, hperm, hle, -, -⟩ :=
    qrun_inv evs (RequestQueue.init mc mq) (QInv_init mc mq) hids
      (by intro j _; simp [RequestQueue.init])
  rw [← hperm.length_eq]
  calc (qrun (RequestQueue.init mc mq) evs).active.length
      ≤ (qrun (RequestQueue.init mc mq) evs).maxConcurrent := hle
    _ = mc := qrun_maxConcurrent evs (RequestQueue.init mc mq)

/-- Counterexample for **C1** as stated: six submissions that reuse one request
id, each dispatched immediately (a schedule the JavaScript realises because
`activeRequests` is a `Map` keyed by id, so duplicates collapse to one key),
leave six handlers running at once under the default `maxConcurrent = 5`. -/
theorem requestQueue_concurrency_bound_cex :
    5 < (qrun (RequestQueue.init 5 100)
        [.add 0, .dispatch, .add 0, .dispatch, .add 0, .dispatch,
         .add 0, .dispatch, .add 0, .dispatch, .add 0, .dispatch]).running.length := by
  decide

/-- Witness for **C1**: a distinct-id trace with `maxConcurrent = 2` keeps the
running-handler count within the bound. -/
theorem requestQueue_concurrency_bound_witness :
    (addIds [.add 1, .dispatch, .add 2, .dispatch, .add 3, .dispatch]).Nodup ∧
    (qrun (RequestQueue.init 2 100)
        [.add 1, .dispatch, .add 2, .dispatch, .add 3, .dispatch]).running.length ≤ 2 :=
  ⟨by decide,
    requestQueue_concurrency_bound 2 100
      [.add 1, .dispatch, .add 2, .dispatch, .add 3, .dispatch] (by decide)⟩

/-- Claim C10 (amended) — Along every event trace whose submitted request ids are
pairwise distinct, after every completed queue operation `requestStats.queued`
equals the backlog length and `requestStats.processing` equals the size of the
`activeRequests` map. -/
theorem requestQueue_stats_consistent (mc mq : Nat) (evs : List QEvent)
    (hids : (addIds evs).Nodup) :
    (qrun (RequestQueue.init mc mq) evs).stats.queued
        = ((qrun (RequestQueue.init mc mq) evs).queue.length : Int) ∧
    (qrun (RequestQueue.init mc mq) evs).stats.processing
        = ((qrun (RequestQueue.init mc mq) evs).active.length : Int) := by
  obtain ⟨-, hperm, -, hq, hp⟩ :=
    qrun_inv evs (RequestQueue.init mc mq) (QInv_init mc mq) hids
      (by intro j _; simp [RequestQueue.init])
  exact ⟨hq, by rw [hp, hperm.length_eq]⟩

/-- Counterexample for **C10** as stated: dispatching two submissions that share
one request id leaves `requestStats.processing = 2` while the `activeRequests`
map holds a single key (the second `Map.set` overwrote the first). -/
theorem requestQueue_stats_consistent_cex :
    ¬ (qrun (RequestQueue.init 5 100)
          [.add 7, .dispatch, .add 7, .dispatch]).stats.processing
        = ((qrun (RequestQueue.init 5 100)
          [.add 7, .dispatch, .add 7, .dispatch]).active.length : Int) := by
  decide

/-- Witness for **C10**: a distinct-id trace exercising admission, dispatch,
settlement and clear keeps both stats counters consistent. -/
theorem requestQueue_stats_consistent_witness :
    (addIds [.add 1, .dispatch, .add 2, .add 3, .settle 1 true, .dispatch, .clear]).Nodup ∧
    (qrun (RequestQueue.init 2 100)
        [.add 1, .dispatch, .add 2, .add 3, .settle 1 true, .dispatch, .clear]).stats.queued
      = ((qrun (RequestQueue.init 2 100)
        [.add 1, .dispatch, .add 2, .add 3, .settle 1 true, .dispatch, .clear]).queue.length : Int) ∧
    (qrun (RequestQueue.init 2 100)
        [.add 1, .dispatch, .add 2, .add 3, .settle 1 true, .dispatch, .clear]).stats.processing
      = ((qrun (RequestQueue.init 2 100)
        [.add 1, .dispatch, .add 2, .add 3, .settle 1 true, .dispatch, .clear]).active.length : Int) :=
  ⟨by decide,
    (requestQueue_stats_consistent 2 100
        [.add 1, .dispatch, .add 2, .add 3, .settle 1 true, .dispatch, .clear] (by decide)).1,
    (requestQueue_stats_consistent 2 100
        [.add 1, .dispatch, .add 2, .add 3, .settle 1 true, .dispatch, .clear] (by decide)).2⟩

/-- Is the middleware verdict an admission? -/
def isNextVerdict : RLVerdict → Bool
  | .next => true
  | .reject _ _ => false

theorem rateLimitStep_inWindow (w m c t0 t : Nat) (ht : t ≤ t0 + w) :
    rateLimitStep w m (some ⟨c, t0 + w⟩) t =
      if m ≤ c then
        (⟨c, t0 + w⟩, .reject 429 (ceilDivThousand (((t0 + w : Nat) : Int) - ((t : Nat) : Int))))
      else (⟨c + 1, t0 + w⟩, .next) := by
  unfold rateLimitStep
  simp only [Option.getD_some]
  rw [if_neg (by omega : ¬ t > t0 + w)]

theorem ceilDivThousand_mono {a b : Int} (h : a ≤ b) :
    ceilDivThousand a ≤ ceilDivThousand b := by
  unfold ceilDivThousand
  exact Int.ediv_le_ediv (by norm_num) (by omega)

/-- Within one fixed window (all call times between the window's start and its
reset time), starting from a count `c ≤ m`: every call is admitted while the
count is below `m` and rejected with a 429 and a bounded `retryAfter` from then
on, and the number of admissions is `min (calls) (m - c)`. -/
theorem rateLimitRun_window (w m t0 : Nat) :
    ∀ (ts : List Nat) (c : Nat), c ≤ m →
      (∀ t ∈ ts, t0 ≤ t ∧ t ≤ t0 + w) →
      (rateLimitRun w m (some ⟨c, t0 + w⟩) ts).2.length = ts.length ∧
      (rateLimitRun w m (some ⟨c, t0 + w⟩) ts).2.countP isNextVerdict
          = min ts.length (m - c) ∧
      (∀ k (hk : k < (rateLimitRun w m (some ⟨c, t0 + w⟩) ts).2.length),
        (c + k < m → (rateLimitRun w m (some ⟨c, t0 + w⟩) ts).2.get ⟨k, hk⟩ = .next) ∧
        (m ≤ c + k → ∃ ra, (rateLimitRun w m (some ⟨c, t0 + w⟩) ts).2.get ⟨k, hk⟩
              = .reject 429 ra ∧ ra ≤ ceilDivThousand ((w : Nat) : Int))) := by
  intro ts
  induction ts with
  | nil =>
    intro c hc _
    refine ⟨rfl, ?_, ?_⟩
    · show List.countP isNextVerdict [] = min (List.length []) (m - c)
      simp
    · intro k hk
      have : k < 0 := hk
      omega
  | cons t rest ih =>
    intro c hc hts
    obtain ⟨ht0, htw⟩ := hts t (List.mem_cons_self t rest)
    have hrest : ∀ u ∈ rest, t0 ≤ u ∧ u ≤ t0 + w :=
      fun u hu => hts u (List.mem_cons_of_mem t hu)
    by_cases hcm : m ≤ c
    · have hstep := rateLimitStep_inWindow w m c t0 t htw
      rw [if_pos hcm] at hstep
      have hrun : rateLimitRun w m (some ⟨c, t0 + w⟩) (t :: rest)
          = ((rateLimitRun w m (some ⟨c, t0 + w⟩) rest).1,
             .reject 429 (ceilDivThousand (((t0 + w : Nat) : Int) - ((t : Nat) : Int)))
               :: (rateLimitRun w m (some ⟨c, t0 + w⟩) rest).2) := by
        show (let sv := rateLimitStep w m (some ⟨c, t0 + w⟩) t
              let rv := rateLimitRun w m (some sv.1) rest
              (rv.1, sv.2 :: rv.2)) = _
        rw [hstep]
      obtain ⟨ihlen, ihcount, ihidx⟩ := ih c hc hrest
      rw [hrun]
      refine ⟨by simpa using ihlen, ?_, ?_⟩
      · rw [List.countP_cons]
        simp only [isNextVerdict, Bool.false_eq_true, if_false, List.length_cons]
        rw [ihcount]
        omega
      · intro k hk
        cases k with
        | zero =>
          constructor
          · intro hlt
            omega
          · intro _
            refine ⟨_, rfl, ?_⟩
            apply ceilDivThousand_mono
            push_cast
            omega
        | succ k =>
          have hk' : k < (rateLimitRun w m (some ⟨c, t0 + w⟩) rest).2.length := by
            simpa using Nat.lt_of_succ_lt_succ hk
          obtain ⟨ihn, ihr⟩ := ihidx k hk'
          constructor
          · intro hlt
            have : c + k < m := by omega
            simpa using ihn this
          · intro hge
            have : m ≤ c + k := by omega
            simpa using ihr this
    · have hstep := rateLimitStep_inWindow w m c t0 t htw
      rw [if_neg hcm] at hstep
      have hrun : rateLimitRun w m (some ⟨c, t0 + w⟩) (t :: rest)
          = ((rateLimitRun w m (some ⟨c + 1, t0 + w⟩) rest).1,
             .next :: (rateLimitRun w m (some ⟨c + 1, t0 + w⟩) rest).2) := by
        show (let sv := rateLimitStep w m (some ⟨c, t0 + w⟩) t
              let rv := rateLimitRun w m (some sv.1) rest
              (rv.1, sv.2 :: rv.2)) = _
        rw [hstep]
      obtain ⟨ihlen, ihcount, ihidx⟩ := ih (c + 1) (by omega) hrest
      rw [hrun]
      refine ⟨by simpa using ihlen, ?_, ?_⟩
      · rw [List.countP_cons]
        simp only [isNextVerdict, if_true, List.length_cons]
        rw [ihcount]
        omega
      · intro k hk
        cases k with
        | zero =>
          constructor
          · intro _
            rfl
          · intro hge
            omega
        | succ k =>
          have hk' : k < (rateLimitRun w m (some ⟨c + 1, t0 + w⟩) rest).2.length := by
            simpa using Nat.lt_of_succ_lt_succ hk
          obtain ⟨ihn, ihr⟩ := ihidx k hk'
          constructor
          · intro hlt
            have : c + 1 + k < m := by omega
            simpa using ihn this
          · intro hge
            have : m ≤ c + 1 + k := by omega
            simpa using ihr this

/-- Claim C3 — For one client within a single fixed window: exactly
`min (requests) max` requests are admitted, so with more than `max` requests
exactly `max` succeed; the `(max+1)`-th and all later requests are rejected with
status 429 and a `retryAfter` never exceeding the window duration (in ceiled
seconds); a rejection's `retryAfter` equals `⌈(windowResetAt − now)/1000⌉`; and
once `now` exceeds `windowResetAt` the entry lazily resets and a fresh window of
the same duration begins (the resetting request itself is admitted as count 1). -/
theorem rateLimit_window (w m : Nat) (hm : 1 ≤ m) (t0 : Nat) (ts : List Nat)
    (hts : ∀ t ∈ ts, t0 ≤ t ∧ t ≤ t0 + w) :
    (rateLimitRun w m none (t0 :: ts)).2.countP isNextVerdict = min (ts.length + 1) m ∧
    (∀ k (hk : k < (rateLimitRun w m none (t0 :: ts)).2.length),
      (k < m → (rateLimitRun w m none (t0 :: ts)).2.get ⟨k, hk⟩ = .next) ∧
      (m ≤ k → ∃ ra, (rateLimitRun w m none (t0 :: ts)).2.get ⟨k, hk⟩ = .reject 429 ra ∧
          ra ≤ ceilDivThousand ((w : Nat) : Int))) ∧
    (∀ (e : RLEntry) (now : Nat), e.resetTime < now →
        rateLimitStep w m (some e) now = (⟨1, now + w⟩, .next)) ∧
    (∀ (e : RLEntry) (now : Nat), m ≤ e.count → now ≤ e.resetTime →
        rateLimitStep w m (some e) now
          = (e, .reject 429 (ceilDivThousand ((e.resetTime : Int) - ((now : Nat) : Int))))) := by
  have hstep0 : rateLimitStep w m none t0 = (⟨1, t0 + w⟩, .next) := by
    unfold rateLimitStep
    simp only [Option.getD_none]
    rw [if_neg (by omega : ¬ t0 > t0 + w)]
    rw [if_neg (by omega : ¬ (0 ≥ m))]
  have hrun : rateLimitRun w m none (t0 :: ts)
      = ((rateLimitRun w m (some ⟨1, t0 + w⟩) ts).1,
         .next :: (rateLimitRun w m (some ⟨1, t0 + w⟩) ts).2) := by
    show (let sv := rateLimitStep w m none t0
          let rv := rateLimitRun w m (some sv.1) ts
          (rv.1, sv.2 :: rv.2)) = _
    rw [hstep0]
  obtain ⟨ihlen, ihcount, ihidx⟩ := rateLimitRun_window w m t0 ts 1 hm hts
  refine ⟨?_, ?_, ?_, ?_⟩
  · rw [hrun, List.countP_cons]
    simp only [isNextVerdict, if_true, List.length_cons]
    rw [ihcount]
    omega
  · rw [hrun]
    intro k hk
    cases k with
    | zero =>
      refine ⟨fun _ => rfl, fun hge => absurd hm (by omega)⟩
    | succ k =>
      have hk' : k < (rateLimitRun w m (some ⟨1, t0 + w⟩) ts).2.length := by
        simpa using Nat.lt_of_succ_lt_succ hk
      obtain ⟨ihn, ihr⟩ := ihidx k hk'
      constructor
      · intro hlt
        have h1 : 1 + k < m := by omega
        simpa using ihn h1
      · intro hge
        have h1 : m ≤ 1 + k := by omega
        simpa using ihr h1
  · intro e now hreset
    unfold rateLimitStep
    simp only [Option.getD_some]
    rw [if_pos (by omega : now > e.resetTime)]
    rw [if_neg (by omega : ¬ (0 ≥ m))]
  · intro e now hcount hin
    unfold rateLimitStep
    simp only [Option.getD_some]
    rw [if_neg (by omega : ¬ now > e.resetTime)]
    rw [if_pos (by omega : e.count ≥ m)]

/-- Witness for **C3**: 25 requests from one client inside a 60 s window admit
exactly 20; the 21st is rejected with 429 and `retryAfter ≤ 60`; a stale entry
lazily resets into a fresh 60 s window. -/
theorem rateLimit_window_witness :
    (rateLimitRun 60000 20 none (0 :: List.replicate 24 0)).2.countP isNextVerdict
        = min ((List.replicate 24 0 : List Nat).length + 1) 20 ∧
    (∃ ra, (rateLimitRun 60000 20 none (0 :: List.replicate 24 0)).2.get ⟨20, by decide⟩
        = .reject 429 ra ∧ ra ≤ ceilDivThousand ((60000 : Nat) : Int)) ∧
    rateLimitStep 60000 20 (some ⟨20, 5⟩) 6 = (⟨1, 60006⟩, .next) :=
  ⟨(rateLimit_window 60000 20 (by decide) 0 (List.replicate 24 0) (by decide)).1,
    ((rateLimit_window 60000 20 (by decide) 0 (List.replicate 24 0) (by decide)).2.1
        20 (by decide)).2 (by decide),
    (rateLimit_window 60000 20 (by decide) 0 (List.replicate 24 0) (by decide)).2.2.1
      ⟨20, 5⟩ 6 (by decide)⟩
